import Mathlib

/-!
Verification of the NVRemoted relay server (github.com/n0ot/nvremoted)
against its natural-language specification.

The definitions below are a shallow embedding of the current generation of
the server: package `pkg/server` (registry, channel task, client message
handlers in `client-handlers.go` / `client-message.go`) together with the
per-connection client of the same package (`client.go`, the file holding
`serveClient`, `readFromClient`, `handleClient`, `client.stop` and
`unmarshalClientMessage`) and the ping loop of `pkg/server/server.go`.

Conventions of the embedding:
  * Go `map[string]interface{}` payloads are association lists
    `List (String × Jval)`; lookup follows Go JSON semantics (a later
    duplicate key overrides an earlier one), see `objGet`.
  * JSON values that no modelled code path inspects (arrays and nested
    objects) are collapsed into the constructor `Jval.other`; every code
    path modelled here only ever discriminates null / bool / number /
    string versus "anything else".
  * Machine integers (`uint64` ids, `int` counters) are `Nat`; no modelled
    operation can overflow a `uint64` in the regimes the claims quantify
    over, and no wrap-around behaviour is relied upon.
  * A handler's interactions with its client (`c.send`, `c.stop`,
    `time.Sleep`, sending into the channel's `messages` inbox) are
    returned as an explicit list of `Effect`s, in program order.
  * Delivery of a `Message` to a member's `events` channel is recorded as
    a pair `(member id, message)`.
  * Wall-clock values (`time.Now`, uptime, the peak timestamps) are not
    modelled; the stats snapshot keeps only the counters.
-/

/-- A JSON value as decoded by `encoding/json` into `interface{}`.
Arrays and nested objects are opaque to every code path modelled here and
are collapsed into `other`. -/
inductive Jval where
  | null
  | bool (b : Bool)
  | num (n : Int)
  | str (s : String)
  | other (tag : Nat)
deriving DecidableEq, Repr

/-- Lookup in a decoded JSON object. Go's `json.Unmarshal` into a map lets a
later duplicate key override an earlier one, so the LAST binding wins. -/
def objGet (fields : List (String × Jval)) (key : String) : Option Jval :=
  match fields with
  | [] => none
  | (k, v) :: rest =>
    match objGet rest key with
    | some v2 => some v2
    | none => if k = key then some v else none

/-- `channelMember` of `client-handlers.go`: a session's presence in a
channel. The `events` channel handle is not stored; deliveries are recorded
against the member's id instead. -/
structure Member where
  id : Nat
  connectionType : String
deriving DecidableEq, Repr

/-- `channelMessage` of `client-handlers.go`: an opaque relay payload with
the originating session's id. -/
structure ChannelMessage where
  origin : Nat
  msg : List (String × Jval)
deriving DecidableEq, Repr

/-- The `Message` values that flow through the server (inbound verbs after
unmarshalling, and channel events). Constructors correspond to
`ClientJoinMessage`, `ClientProtocolVersionMessage`, `ClientStatMessage`,
`channelMessage`, `joinedChannelMSG`, `leftChannelMSG` and `pingMessage`. -/
inductive Msg where
  | join (channel : String) (connectionType : String)
  | protocolVersion (version : Int)
  | stat (password : String)
  | channelMsg (m : ChannelMessage)
  | joinedChannel (member : Member)
  | leftChannel (member : Member)
  | ping
deriving DecidableEq, Repr

/-- The `Name()` method of each `Message` implementation. -/
def Msg.name : Msg → String
  | .join _ _ => "join"
  | .protocolVersion _ => "protocol_version"
  | .stat _ => "stat"
  | .channelMsg _ => "channel_message"
  | .joinedChannel _ => "joined_channel"
  | .leftChannel _ => "left_channel"
  | .ping => "ping"

/-- The `Stats` snapshot of `client-handlers.go` (registry part), counters
only; `Uptime` and the two peak timestamps are wall-clock values and are
not modelled. -/
structure Stats where
  numChannels : Nat
  numE2eChannels : Int
  numClients : Nat
  maxChannels : Nat
  maxClients : Nat
deriving DecidableEq, Repr

/-- Outbound responses written to one client, mirroring the response
structs of `client-message.go`. `response` is the map-valued
`ClientResponse` used for relayed channel messages. -/
inductive OutMsg where
  | errorResp (error : String)
  | channelJoined (clients : List Member) (channel : String) (origin : Nat)
  | clientJoined (client : Member)
  | clientLeft (client : Member)
  | statsResp (stats : Stats)
  | response (fields : List (String × Jval))
deriving DecidableEq, Repr

/-- One observable interaction of a handler with its client or channel, in
program order: `c.send(...)`, `time.Sleep(seconds)`, `c.stop(reason)`, or
`c.channel.messages <- m`. -/
inductive Effect where
  | send (msg : OutMsg)
  | sleep (seconds : Nat)
  | stop (reason : String)
  | toChannel (m : ChannelMessage)
deriving DecidableEq, Repr

/-- The only unmarshal failure relevant to well-formed JSON input:
`json.UnmarshalTypeError` (a JSON value of the wrong type for the target
field). -/
inductive UnmarshalError where
  | typeError
deriving DecidableEq, Repr

/-- Go semantics of unmarshalling a JSON object field into a `string`
struct field: absent or `null` leaves the zero value, a string is taken,
anything else is an `UnmarshalTypeError`. -/
def getStringField (fields : List (String × Jval)) (key : String) :
    Except UnmarshalError String :=
  match objGet fields key with
  | none => .ok ""
  | some .null => .ok ""
  | some (.str s) => .ok s
  | some _ => .error .typeError

/-- Go semantics of unmarshalling a JSON object field into an `int` struct
field: absent or `null` leaves the zero value, a number is taken, anything
else is an `UnmarshalTypeError`. -/
def getIntField (fields : List (String × Jval)) (key : String) :
    Except UnmarshalError Int :=
  match objGet fields key with
  | none => .ok 0
  | some .null => .ok 0
  | some (.num n) => .ok n
  | some _ => .error .typeError

/-- The keys of the `clientMessages` map built in `client-message.go`'s
`init`: the verbs for which a typed unmarshal target is registered. -/
def knownVerb (t : String) : Bool :=
  t = "join" || t = "protocol_version" || t = "stat"

/-- A top-level JSON document as read by the streaming decoder: either an
object (whose fields are then inspected) or any other well-formed JSON
value (which fails the struct and map unmarshals alike). -/
inductive Jraw where
  | obj (fields : List (String × Jval))
  | nonObj (v : Jval)
deriving DecidableEq, Repr

/-- `unmarshalClientMessage` of `client.go` (2023 generation): decode the
raw JSON, probe it as a `GenericClientMessage` for its `"type"`, then
unmarshal it as the registered typed variant, or as the opaque
`channelMessage` (origin = the reading session's id) when the type names no
registered verb. A non-object top-level value fails the generic probe. -/
def unmarshalClientMessage (id : Nat) (raw : Jraw) : Except UnmarshalError Msg :=
  match raw with
  | .obj fields =>
    match getStringField fields "type" with
    | .error e => .error e
    | .ok t =>
      if t = "join" then
        match getStringField fields "channel", getStringField fields "connection_type" with
        | .ok ch, .ok ct => .ok (.join ch ct)
        | .error e, _ => .error e
        | _, .error e => .error e
      else if t = "protocol_version" then
        match getIntField fields "version" with
        | .ok v => .ok (.protocolVersion v)
        | .error e => .error e
      else if t = "stat" then
        match getStringField fields "password" with
        | .ok pw => .ok (.stat pw)
        | .error e => .error e
      else
        .ok (.channelMsg ⟨id, fields⟩)
  | _ => .error .typeError

/-- Lookup in a Go map modelled as an association list with unique keys
(`registry.clients`, `registry.channels`). -/
def alGet {α : Type} [DecidableEq α] {β : Type} :
    List (α × β) → α → Option β
  | [], _ => none
  | (k, v) :: rest, key => if k = key then some v else alGet rest key

/-- Map store `m[k] = v`: replace the binding if the key is present,
append it otherwise. -/
def alPut {α : Type} [DecidableEq α] {β : Type} :
    List (α × β) → α → β → List (α × β)
  | [], key, val => [(key, val)]
  | (k, v) :: rest, key, val =>
    if k = key then (key, val) :: rest else (k, v) :: alPut rest key val

/-- Map delete `delete(m, k)`. -/
def alDel {α : Type} [DecidableEq α] {β : Type} :
    List (α × β) → α → List (α × β)
  | [], _ => []
  | (k, v) :: rest, key =>
    if k = key then alDel rest key else (k, v) :: alDel rest key

/-- `channel.isE2e` of `client-handlers.go`: name prefixed `E2E_` and
exactly 68 bytes long. -/
def isE2e (name : String) : Bool :=
  name.startsWith "E2E_" && name.length = 68

/-- The `channel` struct of `client-handlers.go`. The three Go channel
inboxes are modelled as follows: `joins` is `joinQueue` (the requests sent
but not yet served), while `parts` and `messages` requests are applied
directly by `chanProcessPart` / `chanProcessMessage`; `pendingJoins` is the
counter field of the source. -/
structure Chan where
  name : String
  members : List Member
  pendingJoins : Nat
  joinQueue : List Member
deriving DecidableEq, Repr

/-- The `registry` struct of `client-handlers.go` (registry part). The
`lock` is represented by treating each locked section as one atomic step;
`createdTime` and the two peak timestamps are wall-clock values and are
omitted. -/
structure Registry where
  clients : List (Nat × Member)
  channels : List (String × Chan)
  statsPassword : String
  numE2eChannels : Int
  maxChannels : Nat
  maxClients : Nat
deriving DecidableEq, Repr

/-- A fresh registry, as built in `Server.Serve`. -/
def initRegistry (pw : String) : Registry :=
  { clients := []
    channels := []
    statsPassword := pw
    numE2eChannels := 0
    maxChannels := 0
    maxClients := 0 }

/-- `registry.Stats()` (counters only; `Uptime` and the peak times are
wall-clock values). -/
def registryStats (reg : Registry) : Stats :=
  { numChannels := reg.channels.length
    numE2eChannels := reg.numE2eChannels
    numClients := reg.clients.length
    maxChannels := reg.maxChannels
    maxClients := reg.maxClients }

/-- The section of `joinChannel` (`client-handlers.go`) executed under
`reg.lock`: index the member in `reg.clients` and bump the client peak,
look up or create the named channel (on creation: bump the e2e and channel
peak counters), then increment `pendingJoins`. Sending the join request
into the channel's `joins` inbox is recorded by appending the member to
`joinQueue`. -/
def joinChannelLocked (name : String) (m : Member) (reg : Registry) : Registry :=
  let clients := alPut reg.clients m.id m
  let maxClients := max reg.maxClients clients.length
  match alGet reg.channels name with
  | some c =>
    { reg with
      clients := clients
      maxClients := maxClients
      channels := alPut reg.channels name
        { c with
          pendingJoins := c.pendingJoins + 1
          joinQueue := c.joinQueue ++ [m] } }
  | none =>
    let c : Chan := { name := name, members := [], pendingJoins := 1, joinQueue := [m] }
    let channels := alPut reg.channels name c
    { reg with
      clients := clients
      maxClients := maxClients
      channels := channels
      numE2eChannels := reg.numE2eChannels + (if isE2e name then 1 else 0)
      maxChannels := max reg.maxChannels channels.length }

/-- Result of the channel task serving one join request. -/
structure JoinOutcome where
  ch : Chan
  resp : Except String (List Member)
  events : List (Nat × Msg)
deriving Repr

/-- The `joins` case of `channel.start`: if the member's id is already
present reply with the error `already a member`; otherwise reply with the
current member list, broadcast `joinedChannelMSG` to the existing members,
and append the new member. Either way `pendingJoins` is decremented. -/
def chanProcessJoin (c : Chan) (m : Member) : JoinOutcome :=
  if c.members.any (fun mem => mem.id = m.id) then
    { ch := { c with pendingJoins := c.pendingJoins - 1 }
      resp := .error "already a member"
      events := [] }
  else
    { ch := { c with members := c.members ++ [m], pendingJoins := c.pendingJoins - 1 }
      resp := .ok c.members
      events := c.members.map (fun mem => (mem.id, Msg.joinedChannel m)) }

/-- The member-removal loop of the `parts` case of `channel.start`,
returning the remaining list and the removed member. Member ids within a
channel are unique (the `joins` case refuses duplicates), so removing the
first match is exact. -/
def removeMemberById : List Member → Nat → List Member × Option Member
  | [], _ => ([], none)
  | mem :: rest, id =>
    if mem.id = id then (rest, some mem)
    else
      let r := removeMemberById rest id
      (mem :: r.1, r.2)

/-- Result of the channel task serving one part request. `exited` records
that the channel deleted itself from the registry and its goroutine
returned. -/
structure PartOutcome where
  reg : Registry
  events : List (Nat × Msg)
  exited : Bool
deriving Repr

/-- The `parts` case of `channel.start`: remove the matching member,
broadcast `leftChannelMSG` to the remaining members, then under `reg.lock`
delete the client index entry and, if no members remain and no joins are
pending, delete the channel from the registry (adjusting the e2e counter)
and exit the task. -/
def chanProcessPart (reg : Registry) (name : String) (id : Nat) : PartOutcome :=
  match alGet reg.channels name with
  | none => { reg := reg, events := [], exited := false }
  | some c =>
    let rm := removeMemberById c.members id
    let events : List (Nat × Msg) :=
      match rm.2 with
      | some mem => rm.1.map (fun m2 => (m2.id, Msg.leftChannel mem))
      | none => []
    let clients := alDel reg.clients id
    if rm.1 = [] ∧ c.pendingJoins = 0 then
      { reg := { reg with
          clients := clients
          channels := alDel reg.channels name
          numE2eChannels := reg.numE2eChannels - (if isE2e name then 1 else 0) }
        events := events
        exited := true }
    else
      { reg := { reg with
          clients := clients
          channels := alPut reg.channels name { c with members := rm.1 } }
        events := events
        exited := false }

/-- The `messages` case of `channel.start`: deliver the relay message to
the events inbox of every member whose id differs from the origin. -/
def chanProcessMessage (c : Chan) (m : ChannelMessage) : List (Nat × Msg) :=
  (c.members.filter (fun mem => m.origin ≠ mem.id)).map
    (fun mem => (mem.id, Msg.channelMsg m))

/-- The registry after the channel task has served the next queued join
request: the channel is updated in place in the channel map. -/
def regAfterProcessJoin (reg : Registry) (name : String) (m : Member)
    (q : List Member) (c : Chan) : Registry :=
  { reg with
    channels := alPut reg.channels name (chanProcessJoin { c with joinQueue := q } m).ch }

/-- One atomic step of the registry / channel-task system. Each constructor
is one lock-protected (or single-task) section of the source:
the locked section of `joinChannel`, the `joins` case and the `parts`
case of `channel.start`. -/
inductive RegStep : Registry → Registry → Prop where
  | joinLookup (reg : Registry) (name : String) (m : Member) :
      RegStep reg (joinChannelLocked name m reg)
  | processJoin (reg : Registry) (name : String) (m : Member) (q : List Member)
      (c : Chan) (hc : alGet reg.channels name = some c) (hq : c.joinQueue = m :: q) :
      RegStep reg (regAfterProcessJoin reg name m q c)
  | processPart (reg : Registry) (name : String) (id : Nat) :
      RegStep reg (chanProcessPart reg name id).reg

/-- Registry states reachable from a fresh server. -/
inductive Reachable (pw : String) : Registry → Prop where
  | init : Reachable pw (initRegistry pw)
  | step {r r2 : Registry} : Reachable pw r → RegStep r r2 → Reachable pw r2

/-- The fields of the `client` struct of `client.go` that the message
handlers consult: the session id and the active-channel pointer (tracked
here by channel name; the handlers only test it against `nil` and send into
it). -/
structure ClientState where
  id : Nat
  channel : Option String
deriving DecidableEq, Repr

/-- `handleClientProtocolVersion` of `client-message.go`: only version 2 is
accepted (silently); any other value draws the error `version unsupported`
and stops the session with reason `protocol version unsupported`. -/
def handleClientProtocolVersion (version : Int) : List Effect :=
  if version ≠ 2 then
    [.send (.errorResp "version unsupported"), .stop "protocol version unsupported"]
  else
    []

/-- `handleClientStatMessage` of `client-message.go`. -/
def handleClientStatMessage (c : ClientState) (reg : Registry) (password : String) :
    List Effect :=
  match c.channel with
  | some _ => [.send (.errorResp "no stats while in channel"), .stop "protocol error"]
  | none =>
    if password = "" then
      [.send (.errorResp "no password"), .stop "no stats password provided"]
    else if reg.statsPassword ≠ password then
      [.sleep 5, .send (.errorResp "wrong password"), .stop "wrong stats password"]
    else
      [.send (.statsResp (registryStats reg)), .stop "stats request completed"]

/-- `handleClientChannelMessage` of `client-message.go`: an opaque
(unknown-verb) message is forwarded into the active channel's `messages`
inbox; with no active channel it draws the error `not in a channel` and
stops the session. -/
def handleClientChannelMessage (c : ClientState) (cm : ChannelMessage) : List Effect :=
  match c.channel with
  | none => [.send (.errorResp "not in a channel"), .stop "protocol error"]
  | some _ => [.toChannel cm]

/-- `handleClientChannelEvent` of `client-message.go`: copy every field of
the relayed payload into a fresh `ClientResponse` and then set its `origin`
to the originating session's id (`objGet` takes the last binding, so the
appended `origin` overrides any client-supplied one). -/
def handleClientChannelEvent (cm : ChannelMessage) : OutMsg :=
  .response (cm.msg ++ [("origin", Jval.num (Int.ofNat cm.origin))])

/-- The `events` arm of `handleClient` in `client.go`: look the event's
`Name()` up in `clientEventHandlers` (whose `init` registers exactly
`channel_message`, `joined_channel` and `left_channel`) and run the
handler; with no registered handler the session draws
`error "internal error"` and is stopped with reason `internal error`. -/
def dispatchClientEvent (m : Msg) : List Effect :=
  match m with
  | .channelMsg cm => [.send (handleClientChannelEvent cm)]
  | .joinedChannel mem => [.send (.clientJoined mem)]
  | .leftChannel mem => [.send (.clientLeft mem)]
  | _ => [.send (.errorResp "internal error"), .stop "internal error"]

/-- The stop-related fields of the `client` struct of `client.go`. -/
structure StopState where
  stopped : Bool
  stopReason : String
deriving DecidableEq, Repr

/-- `client.stop` of `client.go` (2023 generation): unconditionally set the
stopped flag and overwrite the reason (the `stopMTX` critical section,
atomic here). -/
def clientStop (_s : StopState) (reason : String) : StopState :=
  { stopped := true, stopReason := reason }

/-- `client.isStopped` of `client.go`. -/
def isStopped (s : StopState) : Bool :=
  s.stopped

/-- The ping arm of `Server.Serve` in `pkg/server/server.go`: under the
registry's read lock, `pingMessage{}` is sent to the events channel of
every member indexed in `registry.clients`. -/
def pingTargets (reg : Registry) : List Nat :=
  reg.clients.map (fun p => p.1)

/-- The member list a joiner is told about: the channel's members at the
moment the join request is served (empty when the channel does not yet
exist). -/
def preRoster (reg : Registry) (name : String) : List Member :=
  match alGet reg.channels name with
  | none => []
  | some c => c.members

/-- No join request is already queued at the named channel: the state in
which `joinChannel`'s request is the next one the channel task serves. -/
def quiescentAt (reg : Registry) (name : String) : Prop :=
  match alGet reg.channels name with
  | none => True
  | some c => c.joinQueue = []

/-- Result of `joinChannel` of `client-handlers.go`: the updated registry,
the channel task's reply (roster of pre-existing members, or an error), and
the events the channel task sent to other members. -/
structure JoinChannelResult where
  reg : Registry
  resp : Except String (List Member)
  events : List (Nat × Msg)
deriving Repr

/-- `joinChannel` of `client-handlers.go` followed by the channel task
serving the queued request (the two run on different tasks; composed here
as consecutive atomic steps, exact whenever no other join is already
queued, cf. `quiescentAt`). -/
def joinChannel (name : String) (m : Member) (reg : Registry) : JoinChannelResult :=
  let reg1 := joinChannelLocked name m reg
  match alGet reg1.channels name with
  | none => { reg := reg1, resp := .error "Received unknown type from channel", events := [] }
  | some c =>
    match c.joinQueue with
    | [] => { reg := reg1, resp := .error "Received unknown type from channel", events := [] }
    | m2 :: q =>
      let out := chanProcessJoin { c with joinQueue := q } m2
      { reg := { reg1 with channels := alPut reg1.channels name out.ch }
        resp := out.resp
        events := out.events }

/-- Result of `handleClientJoin`: the updated client, the updated registry,
the effects on the joining client, and the events sent to other members. -/
structure HandleJoinResult where
  client : ClientState
  reg : Registry
  effects : List Effect
  events : List (Nat × Msg)
deriving Repr

/-- `handleClientJoin` of `client-message.go`: reject an empty channel or
connection type and reject a session that already has an active channel
(stopping the session in each case); otherwise join the channel and send
the `channel_joined` response, recording the new active channel. -/
def handleClientJoin (c : ClientState) (reg : Registry)
    (chName : String) (connType : String) : HandleJoinResult :=
  if chName = "" then
    { client := c, reg := reg
      effects := [.send (.errorResp "no channel specified"), .stop "protocol error"]
      events := [] }
  else if connType = "" then
    { client := c, reg := reg
      effects := [.send (.errorResp "no connection_type specified"), .stop "protocol error"]
      events := [] }
  else
    match c.channel with
    | some _ =>
      { client := c, reg := reg
        effects := [.send (.errorResp "already in a channel"), .stop "protocol error"]
        events := [] }
    | none =>
      let member : Member := { id := c.id, connectionType := connType }
      let out := joinChannel chName member reg
      match out.resp with
      | .error e =>
        { client := c, reg := out.reg
          effects := [.send (.errorResp e), .stop "protocol error"]
          events := out.events }
      | .ok members =>
        { client := { c with channel := some chName }, reg := out.reg
          effects := [.send (.channelJoined members chName c.id)]
          events := out.events }

/-- The `json.UnmarshalTypeError` arm of `readFromClient` in `client.go`:
reply `error "malformed message"` and stop the session. -/
def readErrorEffects : UnmarshalError → List Effect
  | .typeError => [.send (.errorResp "malformed message"), .stop "client sent a malformed request"]

theorem alGet_alPut_self {α : Type} [DecidableEq α] {β : Type}
    (m : List (α × β)) (k : α) (v : β) : alGet (alPut m k v) k = some v := by
  induction m with
  | nil => simp [alGet, alPut]
  | cons p rest ih =>
    by_cases h : p.1 = k
    · simp [alPut, alGet, h]
    · simp [alPut, alGet, h, ih]

theorem alGet_alPut_ne {α : Type} [DecidableEq α] {β : Type}
    (m : List (α × β)) (k key : α) (v : β) (h : k ≠ key) :
    alGet (alPut m k v) key = alGet m key := by
  induction m with
  | nil => simp [alGet, alPut, h]
  | cons p rest ih =>
    by_cases h2 : p.1 = k
    · simp [alPut, alGet, h2, h, Ne.symm h]
    · by_cases h3 : p.1 = key <;> simp [alPut, alGet, h2, h3, h, Ne.symm h, ih]

theorem alGet_alDel_self {α : Type} [DecidableEq α] {β : Type}
    (m : List (α × β)) (k : α) : alGet (alDel m k) k = none := by
  induction m with
  | nil => simp [alGet, alDel]
  | cons p rest ih =>
    by_cases h : p.1 = k
    · simp [alDel, alGet, h, ih]
    · simp [alDel, alGet, h, ih]

theorem alGet_alDel_ne {α : Type} [DecidableEq α] {β : Type}
    (m : List (α × β)) (k key : α) (h : k ≠ key) :
    alGet (alDel m k) key = alGet m key := by
  induction m with
  | nil => simp [alGet, alDel]
  | cons p rest ih =>
    by_cases h2 : p.1 = k
    · have h3 : p.1 ≠ key := by rw [h2]; exact h
      simp [alDel, alGet, h2, h3, h, Ne.symm h, ih]
    · by_cases h3 : p.1 = key <;> simp [alDel, alGet, h2, h3, h, Ne.symm h, ih]

theorem objGet_append_single (xs : List (String × Jval)) (k0 key : String) (v0 : Jval) :
    objGet (xs ++ [(k0, v0)]) key =
      if k0 = key then some v0 else objGet xs key := by
  induction xs with
  | nil => by_cases h : k0 = key <;> simp [objGet, h]
  | cons p rest ih =>
    rcases p with ⟨a, b⟩
    simp only [List.cons_append, objGet, List.append_eq]
    rw [ih]
    by_cases h : k0 = key
    · simp [h]
    · simp [h]

/-- The dispatch condition of the relay path: the inbound object's `type`
is absent (or JSON `null`), or is a string that is not a key of the
`clientMessages` map. Exactly these objects unmarshal to the opaque
`channelMessage`. -/
def unknownTypeObjB (fields : List (String × Jval)) : Bool :=
  match objGet fields "type" with
  | none => true
  | some .null => true
  | some (.str t) => !(knownVerb t)
  | some _ => false

theorem unmarshal_of_unknownType (id : Nat) (fields : List (String × Jval))
    (h : unknownTypeObjB fields = true) :
    unmarshalClientMessage id (.obj fields) = .ok (.channelMsg ⟨id, fields⟩) := by
  unfold unknownTypeObjB at h
  cases h0 : objGet fields "type" with
  | none =>
    rw [h0] at h
    simp [unmarshalClientMessage, getStringField, h0]
  | some v =>
    rw [h0] at h
    cases v with
    | null => simp [unmarshalClientMessage, getStringField, h0]
    | str t =>
      simp only [Bool.not_eq_true'] at h
      have h1 : t ≠ "join" := by intro he; rw [he] at h; simp [knownVerb] at h
      have h2 : t ≠ "protocol_version" := by intro he; rw [he] at h; simp [knownVerb] at h
      have h3 : t ≠ "stat" := by intro he; rw [he] at h; simp [knownVerb] at h
      simp [unmarshalClientMessage, getStringField, h0, h1, h2, h3]
    | bool b => simp at h
    | num n => simp at h
    | other tag => simp at h

/-- C5, counterexample: at `version = 1`, `handleClientProtocolVersion`
sends the error `version unsupported` and stops the session with reason
`protocol version unsupported`; it does not terminate the session with
reason `Version mismatch` as the claim states, and the full output — one
`errorResp` and one `stop` — contains no `version_mismatch` response. -/
theorem protocol_version_counterexample :
    handleClientProtocolVersion 1 =
      [.send (.errorResp "version unsupported"), .stop "protocol version unsupported"]
    ∧ Effect.stop "Version mismatch" ∉ handleClientProtocolVersion 1 := by
  refine ⟨rfl, by decide⟩

/-- C5, amended: a `protocol_version` message with `version = 2` is
accepted silently (no effect at all); any other value draws the response
`error "version unsupported"` and the session is stopped with reason
`protocol version unsupported`. -/
theorem protocol_version_amended (v : Int) :
    (v = 2 → handleClientProtocolVersion v = [])
    ∧ (v ≠ 2 → handleClientProtocolVersion v =
        [.send (.errorResp "version unsupported"), .stop "protocol version unsupported"]) := by
  constructor
  · intro h
    simp [handleClientProtocolVersion, h]
  · intro h
    simp [handleClientProtocolVersion, h]

/-- C5, witness for the amended theorem at versions 2 and 3. -/
theorem protocol_version_amended_witness :
    handleClientProtocolVersion 2 = []
    ∧ handleClientProtocolVersion 3 =
        [.send (.errorResp "version unsupported"), .stop "protocol version unsupported"] :=
  ⟨(protocol_version_amended 2).1 rfl, (protocol_version_amended 3).2 (by decide)⟩

/-- C6, counterexample: a session with no active channel that sends an
unknown-verb object (here type `key`) is answered with
`error "not in a channel"` — not `Type unknown, and not in a channel to
relay` — and the session IS stopped (reason `protocol error`), contrary to
the claim that it is kept alive. -/
theorem unknown_verb_outside_channel_counterexample :
    handleClientChannelMessage ⟨0, none⟩ ⟨0, [("type", Jval.str "key")]⟩ =
      [.send (.errorResp "not in a channel"), .stop "protocol error"]
    ∧ Effect.send (.errorResp "Type unknown, and not in a channel to relay") ∉
        handleClientChannelMessage ⟨0, none⟩ ⟨0, [("type", Jval.str "key")]⟩
    ∧ Effect.stop "protocol error" ∈
        handleClientChannelMessage ⟨0, none⟩ ⟨0, [("type", Jval.str "key")]⟩ := by
  refine ⟨rfl, by decide, by decide⟩

/-- C6, amended: an inbound object whose type is not a recognised verb,
read by a session that is not in any channel, unmarshals to the opaque
channel message and draws exactly one `error` reply, with reason
`not in a channel`, after which the session is stopped with reason
`protocol error`. -/
theorem unknown_verb_outside_channel_amended (c : ClientState)
    (fields : List (String × Jval))
    (hu : unknownTypeObjB fields = true) (hch : c.channel = none) :
    unmarshalClientMessage c.id (.obj fields) = .ok (.channelMsg ⟨c.id, fields⟩)
    ∧ handleClientChannelMessage c ⟨c.id, fields⟩ =
        [.send (.errorResp "not in a channel"), .stop "protocol error"] := by
  refine ⟨unmarshal_of_unknownType c.id fields hu, ?_⟩
  simp [handleClientChannelMessage, hch]

/-- C6, witness for the amended theorem: a concrete `key` object from a
session outside any channel. -/
theorem unknown_verb_outside_channel_amended_witness :
    unmarshalClientMessage 4 (.obj [("type", Jval.str "key"), ("scan_code", Jval.num 42)]) =
      .ok (.channelMsg ⟨4, [("type", Jval.str "key"), ("scan_code", Jval.num 42)]⟩)
    ∧ handleClientChannelMessage ⟨4, none⟩
        ⟨4, [("type", Jval.str "key"), ("scan_code", Jval.num 42)]⟩ =
        [.send (.errorResp "not in a channel"), .stop "protocol error"] :=
  unknown_verb_outside_channel_amended ⟨4, none⟩
    [("type", Jval.str "key"), ("scan_code", Jval.num 42)] (by decide) rfl

/-- C9, counterexample: stopping twice is NOT a no-op on the 2023
`client.stop`: after `stop("first reason")` then `stop("second reason")`
the recorded reason is `second reason`, not the first one, so the state
differs from the one left by the first call alone. -/
theorem stop_counterexample :
    clientStop (clientStop ⟨false, ""⟩ "first reason") "second reason" ≠
      clientStop ⟨false, ""⟩ "first reason"
    ∧ (clientStop (clientStop ⟨false, ""⟩ "first reason") "second reason").stopReason =
        "second reason" := by
  refine ⟨by decide, rfl⟩

/-- C9, amended: `client.stop` is idempotent on the stopped flag but
last-writer-wins on the reason: `stop(r1); stop(r2)` leaves the session in
the state of `stop(r2)` alone, so the recorded reason is the one given to
the LAST call; a single `stop(r1)` records `stopped = true` and reason
`r1`. -/
theorem stop_last_writer_wins (s : StopState) (r1 r2 : String) :
    clientStop (clientStop s r1) r2 = clientStop s r2
    ∧ (clientStop s r1).stopped = true
    ∧ (clientStop s r1).stopReason = r1
    ∧ isStopped (clientStop s r1) = true :=
  ⟨rfl, rfl, rfl, rfl⟩

/-- C8: the ping arm of `Server.Serve` does enqueue the ping sentinel on
the events queue of every registered client, but `clientEventHandlers`
registers no handler named `ping`, so `handleClient` treats the sentinel as
an internal error: the session is sent `error "internal error"` and stopped
with reason `internal error` instead of emitting a bare newline. Evaluated
here at a registry holding two members. -/
theorem ping_event_internal_error :
    Msg.ping.name = "ping"
    ∧ pingTargets { clients := [(0, ⟨0, "master"⟩), (1, ⟨1, "slave"⟩)], channels := [], statsPassword := "", numE2eChannels := 0, maxChannels := 0, maxClients := 2 } = [0, 1]
    ∧ dispatchClientEvent .ping =
        [.send (.errorResp "internal error"), .stop "internal error"]
    ∧ Effect.stop "internal error" ∈ dispatchClientEvent .ping := by
  refine ⟨rfl, rfl, rfl, by decide⟩

/-- C4: the `stat` handler. In a channel: error `no stats while in
channel` and the session is stopped. Outside a channel: the snapshot is
sent iff the supplied password is non-empty and equals the configured
stats password; a non-empty mismatching password draws a 5 second sleep
before the error and stop; an empty configured password never yields a
snapshot. -/
theorem stat_request_gating (c : ClientState) (reg : Registry) (pw : String) :
    (c.channel ≠ none → handleClientStatMessage c reg pw =
        [.send (.errorResp "no stats while in channel"), .stop "protocol error"])
    ∧ (c.channel = none →
        ((∃ s, Effect.send (.statsResp s) ∈ handleClientStatMessage c reg pw) ↔
          pw ≠ "" ∧ pw = reg.statsPassword))
    ∧ (c.channel = none → pw ≠ "" → pw ≠ reg.statsPassword →
        handleClientStatMessage c reg pw =
          [.sleep 5, .send (.errorResp "wrong password"), .stop "wrong stats password"])
    ∧ (reg.statsPassword = "" →
        ¬ ∃ s, Effect.send (.statsResp s) ∈ handleClientStatMessage c reg pw) := by
  refine ⟨?_, ?_, ?_, ?_⟩
  · intro h
    cases hch : c.channel with
    | none => exact absurd hch h
    | some chn => simp [handleClientStatMessage, hch]
  · intro hch
    by_cases hpw : pw = ""
    · simp [handleClientStatMessage, hch, hpw]
    · by_cases hsp : reg.statsPassword = pw
      · simp [handleClientStatMessage, hch, hpw, hsp]
      · simp [handleClientStatMessage, hch, hpw, hsp, Ne.symm hsp]
  · intro hch hpw hsp
    simp [handleClientStatMessage, hch, hpw, Ne.symm hsp]
  · intro hempty
    by_cases hch : c.channel = none
    · by_cases hpw : pw = ""
      · simp [handleClientStatMessage, hch, hpw]
      · have hsp : reg.statsPassword ≠ pw := by rw [hempty]; exact fun he => hpw he.symm
        simp [handleClientStatMessage, hch, hpw, hsp]
    · cases hc2 : c.channel with
      | none => exact absurd hc2 hch
      | some chn => simp [handleClientStatMessage, hc2]

/-- C4, witness: configured password `s3cret`; a session outside any
channel supplying the wrong non-empty password gets the 5 second penalty,
the error and the stop. -/
theorem stat_request_gating_witness :
    handleClientStatMessage ⟨0, none⟩ (initRegistry "s3cret") "wrong" =
      [.sleep 5, .send (.errorResp "wrong password"), .stop "wrong stats password"] :=
  (stat_request_gating ⟨0, none⟩ (initRegistry "s3cret") "wrong").2.2.1 rfl
    (by decide) (by decide)

/-- C3, counterexample: a session in channel `room1` (id 0) that sends
`join` naming the SAME channel is answered `error "already in a channel"`
— not `Already in channel` — and the session is stopped (reason
`protocol error`) instead of being kept alive; naming a DIFFERENT channel
(`room2`) draws exactly the same error and stop instead of a silent part
and re-join. -/
theorem join_in_channel_counterexample :
    (handleClientJoin ⟨0, some "room1"⟩ (initRegistry "") "room1" "master").effects =
      [.send (.errorResp "already in a channel"), .stop "protocol error"]
    ∧ Effect.send (.errorResp "Already in channel") ∉
        (handleClientJoin ⟨0, some "room1"⟩ (initRegistry "") "room1" "master").effects
    ∧ Effect.stop "protocol error" ∈
        (handleClientJoin ⟨0, some "room1"⟩ (initRegistry "") "room1" "master").effects
    ∧ (handleClientJoin ⟨0, some "room1"⟩ (initRegistry "") "room2" "master").effects =
        [.send (.errorResp "already in a channel"), .stop "protocol error"]
    ∧ (handleClientJoin ⟨0, some "room1"⟩ (initRegistry "") "room2" "master").events = [] := by
  refine ⟨rfl, by decide, by decide, rfl, rfl⟩

/-- C3, amended: whenever a session that already has an active channel
sends `join` with non-empty `channel` and `connection_type` fields —
naming its current channel or any other — the server replies
`error "already in a channel"` and stops the session with reason
`protocol error`; no part ("channel switch") and no join are performed, and
the registry and the session's channel are unchanged. -/
theorem join_in_channel_amended (c : ClientState) (reg : Registry)
    (name ct chn : String)
    (hn : name ≠ "") (hct : ct ≠ "") (hch : c.channel = some chn) :
    (handleClientJoin c reg name ct).effects =
      [.send (.errorResp "already in a channel"), .stop "protocol error"]
    ∧ (handleClientJoin c reg name ct).events = []
    ∧ (handleClientJoin c reg name ct).reg = reg
    ∧ (handleClientJoin c reg name ct).client = c := by
  refine ⟨?_, ?_, ?_, ?_⟩ <;> simp [handleClientJoin, hn, hct, hch]

/-- C3, witness for the amended theorem: session 7 in `roomA` asking to
join `roomB`. -/
theorem join_in_channel_amended_witness :
    (handleClientJoin ⟨7, some "roomA"⟩ (initRegistry "") "roomB" "slave").effects =
      [.send (.errorResp "already in a channel"), .stop "protocol error"]
    ∧ (handleClientJoin ⟨7, some "roomA"⟩ (initRegistry "") "roomB" "slave").events = [] := by
  have h := join_in_channel_amended ⟨7, some "roomA"⟩ (initRegistry "") "roomB" "slave"
    "roomA" (by decide) (by decide) rfl
  exact ⟨h.1, h.2.1⟩

/-- C1: the relay pipeline. An unknown-verb object read from member O's
session unmarshals to a `channelMessage` carrying O's id; the handler
forwards it into O's channel; the channel task delivers it to every member
whose id differs from O's and to no member with O's id; and the response
each recipient's session builds carries every field of the object with
`origin` overridden to O's id. -/
theorem relay_broadcast (c : ClientState) (ch : Chan) (o : Member)
    (fields : List (String × Jval))
    (hu : unknownTypeObjB fields = true)
    (_hmem : o ∈ ch.members) (hch : c.channel = some ch.name) (hid : c.id = o.id) :
    unmarshalClientMessage c.id (.obj fields) = .ok (.channelMsg ⟨o.id, fields⟩)
    ∧ handleClientChannelMessage c ⟨o.id, fields⟩ = [.toChannel ⟨o.id, fields⟩]
    ∧ (∀ m ∈ ch.members, m.id ≠ o.id →
        (m.id, Msg.channelMsg ⟨o.id, fields⟩) ∈ chanProcessMessage ch ⟨o.id, fields⟩)
    ∧ (∀ p ∈ chanProcessMessage ch ⟨o.id, fields⟩, p.1 ≠ o.id)
    ∧ handleClientChannelEvent ⟨o.id, fields⟩ =
        .response (fields ++ [("origin", Jval.num (Int.ofNat o.id))])
    ∧ (∀ key, objGet (fields ++ [("origin", Jval.num (Int.ofNat o.id))]) key =
        if "origin" = key then some (Jval.num (Int.ofNat o.id)) else objGet fields key) := by
  refine ⟨hid ▸ unmarshal_of_unknownType o.id fields hu, ?_, ?_, ?_, rfl, ?_⟩
  · simp [handleClientChannelMessage, hch]
  · intro m hm hne
    simp only [chanProcessMessage, List.mem_map]
    refine ⟨m, ?_, rfl⟩
    simp only [List.mem_filter, decide_eq_true_eq]
    exact ⟨hm, Ne.symm hne⟩
  · intro p hp
    simp only [chanProcessMessage, List.mem_map] at hp
    obtain ⟨mem, hmem2, hpe⟩ := hp
    simp only [List.mem_filter, decide_eq_true_eq] at hmem2
    rw [← hpe]
    exact Ne.symm hmem2.2
  · intro key
    exact objGet_append_single fields "origin" key (Jval.num (Int.ofNat o.id))

/-- C1, witness: channel `room` with members 0 (master) and 1 (slave);
member 0 sends a `key` object that even carries a forged `origin`; member 1
receives the relayed copy. -/
theorem relay_broadcast_witness :
    ((1 : Nat), Msg.channelMsg ⟨0, [("type", Jval.str "key"), ("origin", Jval.num 99)]⟩) ∈
      chanProcessMessage ⟨"room", [⟨0, "master"⟩, ⟨1, "slave"⟩], 0, []⟩
        ⟨0, [("type", Jval.str "key"), ("origin", Jval.num 99)]⟩ :=
  (relay_broadcast ⟨0, some "room"⟩ ⟨"room", [⟨0, "master"⟩, ⟨1, "slave"⟩], 0, []⟩
      ⟨0, "master"⟩ [("type", Jval.str "key"), ("origin", Jval.num 99)]
      (by decide) (by decide) rfl rfl).2.2.1 ⟨1, "slave"⟩ (by decide) (by decide)

theorem joinChannel_fresh (name : String) (m : Member) (reg : Registry)
    (hq : quiescentAt reg name) (hnew : ∀ mem ∈ preRoster reg name, mem.id ≠ m.id) :
    (joinChannel name m reg).resp = .ok (preRoster reg name)
    ∧ (joinChannel name m reg).events =
        (preRoster reg name).map (fun mem => (mem.id, Msg.joinedChannel m)) := by
  unfold quiescentAt at hq
  cases h0 : alGet reg.channels name with
  | none =>
    have hpre : preRoster reg name = [] := by simp [preRoster, h0]
    rw [hpre]
    simp only [joinChannel, joinChannelLocked, h0]
    rw [alGet_alPut_self]
    simp [chanProcessJoin]
  | some c0 =>
    rw [h0] at hq
    have hpre : preRoster reg name = c0.members := by simp [preRoster, h0]
    have hnew2 : ∀ mem ∈ c0.members, mem.id ≠ m.id := by rw [hpre] at hnew; exact hnew
    have hany : (c0.members.any fun mem => mem.id = m.id) = false := by
      by_contra hcon
      simp only [Bool.not_eq_false, List.any_eq_true, decide_eq_true_eq] at hcon
      obtain ⟨x, hx, hxe⟩ := hcon
      exact hnew2 x hx hxe
    rw [hpre]
    simp only [joinChannel, joinChannelLocked, h0]
    rw [alGet_alPut_self]
    simp [hq, chanProcessJoin, hany]

/-- C2: a successful join (non-empty fields, no active channel, and the
joiner's id not among the channel's members). The `channel_joined`
response is the only effect on the joining session and carries the
joiner's id as `origin`, the channel name, and exactly the roster of
members present immediately before the join was applied; the events sent
to the other members are `joined_channel` notifications only, so no one
else receives a `channel_joined`. -/
theorem channel_joined_roster (c : ClientState) (reg : Registry) (chName ct : String)
    (hn : chName ≠ "") (hct : ct ≠ "") (hch : c.channel = none)
    (hq : quiescentAt reg chName)
    (hnew : ∀ mem ∈ preRoster reg chName, mem.id ≠ c.id) :
    (handleClientJoin c reg chName ct).effects =
      [.send (.channelJoined (preRoster reg chName) chName c.id)]
    ∧ (handleClientJoin c reg chName ct).events =
        (preRoster reg chName).map (fun mem => (mem.id, Msg.joinedChannel ⟨c.id, ct⟩))
    ∧ (handleClientJoin c reg chName ct).client.channel = some chName := by
  have hj := joinChannel_fresh chName ⟨c.id, ct⟩ reg hq hnew
  refine ⟨?_, ?_, ?_⟩
  all_goals
    simp only [handleClientJoin, hn, hct, hch, if_neg, ite_false, if_false]
    try rw [hj.1]
    try simp [hj.2]

/-- C2, witness: channel `room` already holds member 1; session 2 joins as
`slave` and is told exactly the pre-existing roster. -/
theorem channel_joined_roster_witness :
    (handleClientJoin ⟨2, none⟩
        { clients := [(1, ⟨1, "master"⟩)], channels := [("room", ⟨"room", [⟨1, "master"⟩], 0, []⟩)], statsPassword := "", numE2eChannels := 0, maxChannels := 1, maxClients := 1 }
        "room" "slave").effects =
      [.send (.channelJoined [⟨1, "master"⟩] "room" 2)]
    ∧ (handleClientJoin ⟨2, none⟩
        { clients := [(1, ⟨1, "master"⟩)], channels := [("room", ⟨"room", [⟨1, "master"⟩], 0, []⟩)], statsPassword := "", numE2eChannels := 0, maxChannels := 1, maxClients := 1 }
        "room" "slave").events = [(1, Msg.joinedChannel ⟨2, "slave"⟩)] := by
  have h := channel_joined_roster ⟨2, none⟩
    { clients := [(1, ⟨1, "master"⟩)], channels := [("room", ⟨"room", [⟨1, "master"⟩], 0, []⟩)], statsPassword := "", numE2eChannels := 0, maxChannels := 1, maxClients := 1 }
    "room" "slave" (by decide) (by decide) rfl rfl (by decide)
  exact ⟨h.1, h.2.1⟩

/-- C10: totality of the inbound decoder on well-formed JSON objects with
missing or unregistered `type`: such objects unmarshal, without error, to
the opaque channel-relay message whose origin is the reading session's id,
and are then forwarded for relay when the session is in a channel; an
unmarshal error can only arise from a `type` field that is not a string
(and not null), or from an object whose `type` names a registered verb
(whose typed field then had the wrong JSON type), and every unmarshal
error of a well-formed object draws the `malformed message` response. -/
theorem unmarshal_total_unknown_type (id : Nat) (fields : List (String × Jval)) :
    (objGet fields "type" = none →
      unmarshalClientMessage id (.obj fields) = .ok (.channelMsg ⟨id, fields⟩))
    ∧ (∀ t, objGet fields "type" = some (.str t) → knownVerb t = false →
      unmarshalClientMessage id (.obj fields) = .ok (.channelMsg ⟨id, fields⟩))
    ∧ (∀ e, unmarshalClientMessage id (.obj fields) = .error e →
      (∃ v, objGet fields "type" = some v ∧ v ≠ .null ∧ ∀ s, v ≠ .str s)
      ∨ (∃ t, objGet fields "type" = some (.str t) ∧ knownVerb t = true))
    ∧ (∀ e, unmarshalClientMessage id (.obj fields) = .error e →
      readErrorEffects e =
        [.send (.errorResp "malformed message"), .stop "client sent a malformed request"])
    ∧ (∀ cs : ClientState, cs.channel ≠ none →
      handleClientChannelMessage cs ⟨id, fields⟩ = [.toChannel ⟨id, fields⟩]) := by
  refine ⟨?_, ?_, ?_, ?_, ?_⟩
  · intro h
    apply unmarshal_of_unknownType
    unfold unknownTypeObjB
    rw [h]
  · intro t ht hk
    apply unmarshal_of_unknownType
    unfold unknownTypeObjB
    rw [ht]
    simp [hk]
  · intro e he
    cases hv : objGet fields "type" with
    | none =>
      rw [unmarshal_of_unknownType id fields (by unfold unknownTypeObjB; rw [hv])] at he
      exact absurd he (by simp)
    | some v =>
      cases v with
      | null =>
        rw [unmarshal_of_unknownType id fields (by unfold unknownTypeObjB; rw [hv])] at he
        exact absurd he (by simp)
      | str t =>
        by_cases hk : knownVerb t = true
        · exact Or.inr ⟨t, rfl, hk⟩
        · rw [unmarshal_of_unknownType id fields
            (by unfold unknownTypeObjB; rw [hv]; simp at hk; simp [hk])] at he
          exact absurd he (by simp)
      | bool b => exact Or.inl ⟨.bool b, rfl, by simp, fun s => by simp⟩
      | num n => exact Or.inl ⟨.num n, rfl, by simp, fun s => by simp⟩
      | other tag => exact Or.inl ⟨.other tag, rfl, by simp, fun s => by simp⟩
  · intro e _he
    cases e
    rfl
  · intro cs hcs
    cases hc2 : cs.channel with
    | none => exact absurd hc2 hcs
    | some chn => simp [handleClientChannelMessage, hc2]

/-- C10, witness: an object with no `type` at all, and one whose `type`
names no registered verb, both unmarshal to relay messages with the
session's id as origin. -/
theorem unmarshal_total_unknown_type_witness :
    unmarshalClientMessage 7 (.obj [("a", Jval.num 1)]) =
      .ok (.channelMsg ⟨7, [("a", Jval.num 1)]⟩)
    ∧ unmarshalClientMessage 7 (.obj [("type", Jval.str "custom_verb")]) =
      .ok (.channelMsg ⟨7, [("type", Jval.str "custom_verb")]⟩) :=
  ⟨(unmarshal_total_unknown_type 7 [("a", Jval.num 1)]).1 rfl,
   (unmarshal_total_unknown_type 7 [("type", Jval.str "custom_verb")]).2.1
      "custom_verb" rfl (by decide)⟩

/-- The channel-map liveness condition of the registry: every channel still
indexed has a member or a pending join. -/
def regChannelsLive (reg : Registry) : Prop :=
  ∀ name c, alGet reg.channels name = some c → c.members ≠ [] ∨ c.pendingJoins ≠ 0

theorem joinChannelLocked_channels_some (reg : Registry) (name : String) (m : Member)
    (c0 : Chan) (h0 : alGet reg.channels name = some c0) :
    (joinChannelLocked name m reg).channels =
      alPut reg.channels name
        { c0 with pendingJoins := c0.pendingJoins + 1, joinQueue := c0.joinQueue ++ [m] } := by
  unfold joinChannelLocked
  rw [h0]

theorem joinChannelLocked_channels_none (reg : Registry) (name : String) (m : Member)
    (h0 : alGet reg.channels name = none) :
    (joinChannelLocked name m reg).channels =
      alPut reg.channels name ⟨name, [], 1, [m]⟩ := by
  unfold joinChannelLocked
  rw [h0]

theorem regChannelsLive_joinLookup (reg : Registry) (name : String) (m : Member)
    (h : regChannelsLive reg) : regChannelsLive (joinChannelLocked name m reg) := by
  intro n c hc
  cases h0 : alGet reg.channels name with
  | some c0 =>
    rw [joinChannelLocked_channels_some reg name m c0 h0] at hc
    by_cases hn : name = n
    · subst hn
      rw [alGet_alPut_self] at hc
      cases hc
      right
      simp
    · rw [alGet_alPut_ne _ _ _ _ hn] at hc
      exact h n c hc
  | none =>
    rw [joinChannelLocked_channels_none reg name m h0] at hc
    by_cases hn : name = n
    · subst hn
      rw [alGet_alPut_self] at hc
      cases hc
      right
      simp
    · rw [alGet_alPut_ne _ _ _ _ hn] at hc
      exact h n c hc

theorem regChannelsLive_processJoin (reg : Registry) (name : String) (m : Member)
    (q : List Member) (c : Chan) (h : regChannelsLive reg) :
    regChannelsLive (regAfterProcessJoin reg name m q c) := by
  intro n c2 hc
  unfold regAfterProcessJoin at hc
  by_cases hn : name = n
  · subst hn
    rw [alGet_alPut_self] at hc
    cases hc
    unfold chanProcessJoin
    by_cases hany : ({ c with joinQueue := q } : Chan).members.any (fun mem => mem.id = m.id) = true
    · rw [if_pos hany]
      left
      simp only [List.any_eq_true, decide_eq_true_eq] at hany
      obtain ⟨x, hx, _⟩ := hany
      exact List.ne_nil_of_mem hx
    · rw [if_neg hany]
      left
      simp
  · rw [alGet_alPut_ne _ _ _ _ hn] at hc
    exact h n c2 hc

theorem chanProcessPart_none (reg : Registry) (name : String) (id : Nat)
    (h0 : alGet reg.channels name = none) :
    chanProcessPart reg name id = ⟨reg, [], false⟩ := by
  unfold chanProcessPart
  rw [h0]

theorem chanProcessPart_some_delete (reg : Registry) (name : String) (id : Nat) (c : Chan)
    (h0 : alGet reg.channels name = some c)
    (hdel : (removeMemberById c.members id).1 = [] ∧ c.pendingJoins = 0) :
    (chanProcessPart reg name id).reg.channels = alDel reg.channels name
    ∧ (chanProcessPart reg name id).exited = true := by
  unfold chanProcessPart
  rw [h0]
  simp only [if_pos hdel]
  exact ⟨trivial, trivial⟩

theorem chanProcessPart_some_keep (reg : Registry) (name : String) (id : Nat) (c : Chan)
    (h0 : alGet reg.channels name = some c)
    (hkeep : ¬((removeMemberById c.members id).1 = [] ∧ c.pendingJoins = 0)) :
    (chanProcessPart reg name id).reg.channels =
      alPut reg.channels name { c with members := (removeMemberById c.members id).1 }
    ∧ (chanProcessPart reg name id).exited = false := by
  unfold chanProcessPart
  rw [h0]
  simp only [if_neg hkeep]
  exact ⟨trivial, trivial⟩

theorem regChannelsLive_processPart (reg : Registry) (name : String) (id : Nat)
    (h : regChannelsLive reg) : regChannelsLive (chanProcessPart reg name id).reg := by
  intro n c2 hc
  cases h0 : alGet reg.channels name with
  | none =>
    rw [chanProcessPart_none reg name id h0] at hc
    exact h n c2 hc
  | some c0 =>
    by_cases hcond : (removeMemberById c0.members id).1 = [] ∧ c0.pendingJoins = 0
    · rw [(chanProcessPart_some_delete reg name id c0 h0 hcond).1] at hc
      by_cases hn : name = n
      · subst hn
        rw [alGet_alDel_self] at hc
        exact absurd hc (by simp)
      · rw [alGet_alDel_ne _ _ _ hn] at hc
        exact h n c2 hc
    · rw [(chanProcessPart_some_keep reg name id c0 h0 hcond).1] at hc
      by_cases hn : name = n
      · subst hn
        rw [alGet_alPut_self] at hc
        cases hc
        rw [not_and_or] at hcond
        simpa using hcond
      · rw [alGet_alPut_ne _ _ _ _ hn] at hc
        exact h n c2 hc

/-- C7: in every reachable registry state (states between lock-protected
sections, i.e. with the registry lock free), every channel present in the
channel map has a non-empty member list or a non-zero `pendingJoins` (a
channel object no longer present holds no members and no pending joins, so
the converse is definitional in this model); serving a part that leaves no
members while `pendingJoins = 0` deletes the channel from the registry and
exits its task; and a non-zero `pendingJoins` — as produced by the
increment taken under the registry lock in `joinChannel` — prevents that
deletion. -/
theorem registry_presence_invariant (pw : String) (reg : Registry)
    (h : Reachable pw reg) :
    regChannelsLive reg
    ∧ (∀ name id c, alGet reg.channels name = some c →
        (((removeMemberById c.members id).1 = [] ∧ c.pendingJoins = 0) →
          alGet (chanProcessPart reg name id).reg.channels name = none
          ∧ (chanProcessPart reg name id).exited = true)
        ∧ (c.pendingJoins ≠ 0 →
          alGet (chanProcessPart reg name id).reg.channels name =
            some { c with members := (removeMemberById c.members id).1 }
          ∧ (chanProcessPart reg name id).exited = false)) := by
  constructor
  · induction h with
    | init =>
      intro name c hc
      simp [initRegistry, alGet] at hc
    | step hr hs ih =>
      cases hs with
      | joinLookup name m => exact regChannelsLive_joinLookup _ name m ih
      | processJoin name m q c hc hq =>
        exact regChannelsLive_processJoin _ name m q c ih
      | processPart name id => exact regChannelsLive_processPart _ name id ih
  · intro name id c hc
    constructor
    · intro hdel
      have hd := chanProcessPart_some_delete reg name id c hc hdel
      exact ⟨by rw [hd.1]; exact alGet_alDel_self _ _, hd.2⟩
    · intro hpj
      have hkeep : ¬((removeMemberById c.members id).1 = [] ∧ c.pendingJoins = 0) :=
        fun hcon => hpj hcon.2
      have hk := chanProcessPart_some_keep reg name id c hc hkeep
      exact ⟨by rw [hk.1]; exact alGet_alPut_self _ _ _, hk.2⟩

/-- C7, witness: after the locked join-lookup section has run on a fresh
registry, the channel `room` is present with no members yet and
`pendingJoins = 1`, so the invariant instantiates to its second disjunct. -/
theorem registry_presence_invariant_witness :
    (⟨"room", [], 1, [⟨0, "master"⟩]⟩ : Chan).members ≠ []
    ∨ (⟨"room", [], 1, [⟨0, "master"⟩]⟩ : Chan).pendingJoins ≠ 0 :=
  (registry_presence_invariant "pw"
      (joinChannelLocked "room" ⟨0, "master"⟩ (initRegistry "pw"))
      (Reachable.step Reachable.init
        (RegStep.joinLookup (initRegistry "pw") "room" ⟨0, "master"⟩))).1
    "room" ⟨"room", [], 1, [⟨0, "master"⟩]⟩ (by decide)
